import Mathlib

/-!
Verification of the Metaflow programmatic click API
(`metaflow/runner/click_api.py`).

The development shallowly embeds the Python module: Python `OrderedDict`s
become association lists with insert-or-overwrite-in-place semantics,
Python values become the `PyVal` type, click parameter metadata becomes
`ClickParam`, and the mutable `MetaflowAPI` objects become an explicit
heap of numbered objects.  Stateful operations return the updated heap
together with either a result or the raised exception.
-/

set_option autoImplicit false

namespace ClickAPI

universe u v

/-! ## Ordered dictionaries as association lists

Python `dict` / `OrderedDict`: assignment to an existing key overwrites
the value in place (keeping the key's position); assignment to a fresh
key appends at the end.  Lookup returns the first (unique) occurrence. -/

def odLookup {α : Type u} {β : Type v} [DecidableEq α] : List (α × β) → α → Option β
  | [], _ => none
  | (k', v) :: rest, k => if k' = k then some v else odLookup rest k

def odInsert {α : Type u} {β : Type v} [DecidableEq α] : List (α × β) → α → β → List (α × β)
  | [], k, v => [(k, v)]
  | (k', v') :: rest, k, v =>
      if k' = k then (k', v) :: rest else (k', v') :: odInsert rest k v

/-- Python `d.update(u)` on a dict: insert every pair of `u` in order. -/
def odUpdList {α : Type u} {β : Type v} [DecidableEq α]
    (l : List (α × β)) (u : List (α × β)) : List (α × β) :=
  u.foldl (fun d kv => odInsert d kv.1 kv.2) l

def odKeys {α : Type u} {β : Type v} (l : List (α × β)) : List α :=
  l.map Prod.fst

/-! ## Python values -/

/-- A Python runtime value, restricted to the kinds the module handles. -/
inductive PyVal where
  | vStr (s : String)
  | vInt (n : Int)
  | vBool (b : Bool)
  | vNone
  | vList (l : List PyVal)
  deriving Repr

/-- Python `v == True` (numeric equality: `1 == True`). -/
def pyEqTrue : PyVal → Bool
  | .vBool b => b
  | .vInt n => n = 1
  | _ => false

/-- Python `v == False` (numeric equality: `0 == False`). -/
def pyEqFalse : PyVal → Bool
  | .vBool b => !b
  | .vInt n => n = 0
  | _ => false

/-- Python `v == "flag"`. -/
def pyIsFlagMarker : PyVal → Bool
  | .vStr s => s = "flag"
  | _ => false

/-- Python `v is None` style test used through `Optional` checking. -/
def pyIsNone : PyVal → Bool
  | .vNone => true
  | _ => false

/-- The semantic (Python) type a click parameter type maps to, from the
`click_to_python_types` table. -/
inductive PyPrim where
  | pyStr | pyInt | pyFloat | pyBool | pyUUID | pyDateTime | pyTuple | pyJSON
  deriving Repr, DecidableEq

/-- The click parameter-type kinds imported at the top of the module. -/
inductive ClickTypeKind where
  | stringParam | intParam | floatParam | boolParam | uuidParam
  | path | dateTime | tupleT | choice | file | jsonType | filePath | localFileInput
  deriving Repr, DecidableEq

/-- The fixed type table `click_to_python_types`. -/
def click_to_python_types : ClickTypeKind → PyPrim
  | .stringParam => .pyStr
  | .intParam => .pyInt
  | .floatParam => .pyFloat
  | .boolParam => .pyBool
  | .uuidParam => .pyUUID
  | .path => .pyStr
  | .dateTime => .pyDateTime
  | .tupleT => .pyTuple
  | .choice => .pyStr
  | .file => .pyStr
  | .jsonType => .pyJSON
  | .filePath => .pyStr
  | .localFileInput => .pyStr

/-- The four annotation shapes `get_annotation` can produce:
`py`, `List[py]`, `Optional[py]`, `Optional[List[py]]`. -/
inductive Ann where
  | prim (t : PyPrim)
  | listOf (t : PyPrim)
  | optPrim (t : PyPrim)
  | optList (t : PyPrim)
  deriving Repr, DecidableEq

mutual

/-- Does a value lie in the JSON universe (`Union[dict, list, str, int,
float, bool, None]`)?  Used for checking against the `JSON` alias. -/
def isJSONVal : PyVal → Bool
  | .vStr _ => true
  | .vInt _ => true
  | .vBool _ => true
  | .vNone => true
  | .vList l => isJSONValList l

def isJSONValList : List PyVal → Bool
  | [] => true
  | v :: rest => isJSONVal v && isJSONValList rest

end

/-- Structural check of a value against a primitive Python type, modelling
`typeguard.check_type` (external library): `isinstance`-style, where
`bool` is a subclass of `int` and `int` is accepted for `float`
(PEP 484 numeric tower). -/
def checkPrim (v : PyVal) (t : PyPrim) : Bool :=
  match v, t with
  | .vStr _, .pyStr => true
  | .vInt _, .pyInt => true
  | .vInt _, .pyFloat => true
  | .vBool _, .pyBool => true
  | .vBool _, .pyInt => true
  | .vBool _, .pyFloat => true
  | v, .pyJSON => isJSONVal v
  | _, _ => false

/-- Model of `typeguard.check_type` against the four annotation shapes. -/
def checkType (v : PyVal) (a : Ann) : Bool :=
  match a with
  | .prim t => checkPrim v t
  | .listOf t =>
      match v with
      | .vList l => l.all (fun x => checkPrim x t)
      | _ => false
  | .optPrim t => pyIsNone v || checkPrim v t
  | .optList t =>
      pyIsNone v ||
        match v with
        | .vList l => l.all (fun x => checkPrim x t)
        | _ => false

/-! ## String helpers -/

/-- Python `s.strip("-")`: remove leading and trailing `-` characters. -/
def stripDashes (s : String) : String :=
  String.mk ((((s.toList.dropWhile (fun c => c = '-')).reverse.dropWhile
    (fun c => c = '-')).reverse))

mutual

/-- Python `repr` of a value (external builtin, modelled). -/
def pyRepr : PyVal → String
  | .vStr s => "'" ++ s ++ "'"
  | .vInt n => toString n
  | .vBool true => "True"
  | .vBool false => "False"
  | .vNone => "None"
  | .vList l => "[" ++ String.intercalate ", " (pyReprList l) ++ "]"

def pyReprList : List PyVal → List String
  | [] => []
  | v :: rest => pyRepr v :: pyReprList rest

end

/-- Python `str` of a value (external builtin, modelled): as `repr`
except strings print without quotes. -/
def pyStr : PyVal → String
  | .vStr s => s
  | v => pyRepr v

mutual

/-- Model of `json.dumps` (external library): canonical JSON text with
Python's default `", "` separator (escaping of special characters
inside strings is elided; no claim exercises it). -/
def jsonDumps : PyVal → String
  | .vStr s => "\x22" ++ s ++ "\x22"
  | .vInt n => toString n
  | .vBool true => "true"
  | .vBool false => "false"
  | .vNone => "null"
  | .vList l => "[" ++ String.intercalate ", " (jsonDumpsList l) ++ "]"

def jsonDumpsList : List PyVal → List String
  | [] => []
  | v :: rest => jsonDumps v :: jsonDumpsList rest

end

/-! ## Click parameter metadata

A `ClickParam` carries exactly the attributes of a `click.Argument` /
`click.Option` that the module reads: `name`, `opts`, `secondary_opts`,
`is_bool_flag`, `required`, `multiple`, `nargs`, the parameter type and
the default.  `isArgument` records the `isinstance(_, click.Argument)`
versus `isinstance(_, click.Option)` dispatch. -/

structure ClickParam where
  name : String
  isArgument : Bool
  opts : List String
  secondary_opts : List String
  is_bool_flag : Bool
  required : Bool
  multiple : Bool
  nargs : Int
  ptype : ClickTypeKind
  default : PyVal
  deriving Repr

/-- Source `get_annotation(param)`: pick among `py`, `List[py]`, `Optional[py]`,
`Optional[List[py]]` from `required`, `multiple` and `nargs`.
(Named `annOf` here: the source name ends in a reserved word.) -/
def annOf (p : ClickParam) : Ann :=
  let py := click_to_python_types p.ptype
  if !p.required then
    if p.multiple || p.nargs = -1 then Ann.optList py else Ann.optPrim py
  else
    if p.multiple || p.nargs = -1 then Ann.listOf py else Ann.prim py

/-- The kind field of an `inspect.Parameter`. -/
inductive SigKind where
  | positionalOnly
  | keywordOnly
  deriving Repr, DecidableEq

/-- An `inspect.Parameter` as built by `get_inspect_param_obj`. -/
structure SigParam where
  name : String
  kind : SigKind
  default : PyVal
  ann : Ann
  deriving Repr

def get_inspect_param_obj (p : ClickParam) (kind : SigKind) : SigParam :=
  { name := p.name, kind := kind, default := p.default, ann := annOf p }

/-- The five ordered dicts produced by `extract_all_params`
(`arg_params_sigs` and `opt_params_sigs` are kept as well since
`params_sigs` is assembled from them). -/
structure Extracted where
  arg_params_sigs : List (String × SigParam)
  opt_params_sigs : List (String × SigParam)
  params_sigs : List (String × SigParam)
  arg_parameters : List (String × ClickParam)
  opt_parameters : List (String × ClickParam)
  annotations : List (String × Ann)
  defaults : List (String × PyVal)
  deriving Repr

/-- The `for each_param in cmd_obj.params` loop of `extract_all_params`:
arguments go to the `arg_*` dicts, options to the `opt_*` dicts, and
every parameter records its annotation and default. -/
def extractLoop : List ClickParam → Extracted → Extracted
  | [], acc => acc
  | p :: rest, acc =>
      let acc :=
        if p.isArgument then
          { acc with
            arg_params_sigs :=
              odInsert acc.arg_params_sigs p.name (get_inspect_param_obj p .positionalOnly),
            arg_parameters := odInsert acc.arg_parameters p.name p }
        else
          { acc with
            opt_params_sigs :=
              odInsert acc.opt_params_sigs p.name (get_inspect_param_obj p .keywordOnly),
            opt_parameters := odInsert acc.opt_parameters p.name p }
      extractLoop rest
        { acc with
          annotations := odInsert acc.annotations p.name (annOf p),
          defaults := odInsert acc.defaults p.name p.default }

def emptyExtracted : Extracted :=
  { arg_params_sigs := [], opt_params_sigs := [], params_sigs := [],
    arg_parameters := [], opt_parameters := [], annotations := [], defaults := [] }

/-- Source `extract_all_params(cmd_obj)` over the command's parameter list:
run the loop, then fill `params_sigs` with positional signatures first
and keyword signatures second. -/
def extract_all_params (params : List ClickParam) : Extracted :=
  let e := extractLoop params emptyExtracted
  { e with params_sigs := odUpdList (odUpdList [] e.arg_params_sigs) e.opt_params_sigs }

/-- A flow-level parameter as consumed by `extract_command`: the object
exposes `name` and the `kwargs` used to build
`click.Option(("--" + p.name,), **p.kwargs)`.  The click option
construction is external; we model the attributes it yields. -/
structure FlowParam where
  pname : String
  required : Bool
  multiple : Bool
  flagLike : Bool
  ptype : ClickTypeKind
  default : PyVal
  deriving Repr

/-- Model of `click.Option(("--" + p.name,), **p.kwargs)` (external click
constructor, modelled): a keyword option with the single primary
spelling `--name`. -/
def flowParamToOption (fp : FlowParam) : ClickParam :=
  { name := fp.pname, isArgument := false, opts := ["--" ++ fp.pname],
    secondary_opts := [], is_bool_flag := fp.flagLike, required := fp.required,
    multiple := fp.multiple, nargs := 1, ptype := fp.ptype, default := fp.default }

/-- A `click.Command` as read by `extract_command`: its name, parameter
list and the `has_flow_params` marker. -/
structure ClickCommand where
  cname : String
  params : List ClickParam
  has_flow_params : Bool
  deriving Repr

/-- Source `extract_command`: when the command accepts flow parameters, insert
them (in order) at the front of `cmd_obj.params` — this mutates the
command object, so the updated command is returned alongside the
extracted signature data.  `for p in flow_parameters[::-1]:
params.insert(0, ...)` prepends the list in its original order. -/
def extract_command (cmd : ClickCommand) (flow_parameters : List FlowParam) :
    ClickCommand × Extracted :=
  let cmd :=
    if cmd.has_flow_params then
      { cmd with params := flow_parameters.map flowParamToOption ++ cmd.params }
    else cmd
  (cmd, extract_all_params cmd.params)

/-! ## `_method_sanity_check` -/

/-- The exceptions `_method_sanity_check` can raise.  `unknownArgument`
and `missingArgument` are the two `ValueError`s, `invalidType` the
`TypeError`; each carries the data interpolated into its message.
`internalKeyError` models a `KeyError`/`IndexError` on inconsistent
input dicts (never reached from `extract_all_params` output), and
`unboundLocalCliName` the `UnboundLocalError` that Python would raise
when the boolean-flag branch reads `cli_name` before any assignment. -/
inductive BindError where
  | unknownArgument (k : String) (valid : List String)
  | invalidType (k : String) (expected : Ann) (default : PyVal)
  | missingArgument (cliName : String)
  | internalKeyError
  | unboundLocalCliName
  deriving Repr

/-- The error strings, as `%`-formatted in the source. -/
def bindErrorMessage : BindError → String
  | .unknownArgument k valid =>
      "Unknown argument: '" ++ k ++ "', possible args are: " ++
        String.intercalate ", " valid
  | .invalidType k expected dflt =>
      "Invalid type for '" ++ k ++ "', expected: '" ++ reprStr expected ++
        "', default is '" ++ pyRepr dflt ++ "'"
  | .missingArgument cliName => "Missing argument: " ++ cliName ++ " is required."
  | .internalKeyError => "KeyError"
  | .unboundLocalCliName => "UnboundLocalError: cli_name"

/-- Python `method_params = {"args": …, "options": …}`.  The two keys are
tracked as `Option`s because `execute` later `pop`s them. -/
structure MethodParams where
  args : Option (List (String × PyVal))
  options : Option (List (String × PyVal))
  deriving Repr

/-- Python `possible_params = OrderedDict(); update(arg); update(opt)`. -/
def possibleParams (argP optP : List (String × ClickParam)) :
    List (String × ClickParam) :=
  odUpdList (odUpdList [] argP) optP

/-- One iteration of the `for supplied_k, supplied_v in kwargs.items()`
loop of `_method_sanity_check`.  The loop state is the `args` and
`options` dicts plus the last value of the Python local `cli_name`
(which the boolean-flag branch can read without assigning first). -/
def stepKwarg (possible argP optP : List (String × ClickParam))
    (anns : List (String × Ann)) (dfls : List (String × PyVal))
    (k : String) (v : PyVal)
    (args options : List (String × PyVal)) (last : Option String) :
    Except BindError (List (String × PyVal) × List (String × PyVal) × Option String) :=
  match odLookup possible k with
  | none => .error (.unknownArgument k (odKeys possible))
  | some _ =>
    match odLookup anns k with
    | none => .error .internalKeyError
    | some a =>
      if checkType v a then
        -- because Click expects stringified JSON..
        let v := if a = Ann.prim .pyJSON then PyVal.vStr (jsonDumps v) else v
        match odLookup argP k with
        | some p =>
          match p.opts with
          | [] => .error .internalKeyError
          | o₀ :: _ =>
            let cli := stripDashes o₀
            .ok (odInsert args cli v, options, some cli)
        | none =>
          match odLookup optP k with
          | some p =>
            if p.is_bool_flag then
              if pyEqTrue v then
                match p.opts with
                | [] => .error .internalKeyError
                | o₀ :: _ =>
                  let cli := stripDashes o₀
                  .ok (args, odInsert options cli (PyVal.vStr "flag"), some cli)
              else if pyEqFalse v then
                match p.secondary_opts with
                | [] =>
                  -- no secondary spelling: `continue`, nothing is recorded
                  .ok (args, options, last)
                | s₀ :: _ =>
                  let cli := stripDashes s₀
                  .ok (args, odInsert options cli (PyVal.vStr "flag"), some cli)
              else
                -- neither branch assigned cli_name: Python reads the stale local
                match last with
                | none => .error .unboundLocalCliName
                | some cli =>
                  .ok (args, odInsert options cli (PyVal.vStr "flag"), some cli)
            else
              match p.opts with
              | [] => .error .internalKeyError
              | o₀ :: _ =>
                let cli := stripDashes o₀
                .ok (args, odInsert options cli v, some cli)
          | none =>
            -- k is in possible_params but in neither dict: the source has
            -- no else branch, the kwarg is silently dropped
            .ok (args, options, last)
      else
        match odLookup dfls k with
        | none => .error .internalKeyError
        | some d => .error (.invalidType k a d)

/-- The whole supplied-kwargs loop: run `stepKwarg` per item, stopping
at the first raised exception. -/
def processKwargs (possible argP optP : List (String × ClickParam))
    (anns : List (String × Ann)) (dfls : List (String × PyVal)) :
    List (String × PyVal) → List (String × PyVal) → List (String × PyVal) →
    Option String →
    Except BindError (List (String × PyVal) × List (String × PyVal) × Option String)
  | [], args, options, last => .ok (args, options, last)
  | (k, v) :: rest, args, options, last =>
    match stepKwarg possible argP optP anns dfls k v args options last with
    | .error e => .error e
    | .ok (args', options', last') =>
      processKwargs possible argP optP anns dfls rest args' options' last'

/-- The `for _, possible_v in possible_params.items()` loop: the first
declaration that is `required` and whose cli name was bound in neither
`args` nor `options` raises the missing-argument `ValueError`. -/
def checkRequired (args options : List (String × PyVal)) :
    List (String × ClickParam) → Except BindError Unit
  | [] => .ok ()
  | (_, p) :: rest =>
    match p.opts with
    | [] => .error .internalKeyError
    | o₀ :: _ =>
      let cli := stripDashes o₀
      if ((odLookup args cli).isNone && (odLookup options cli).isNone) && p.required then
        .error (.missingArgument cli)
      else
        checkRequired args options rest

def _method_sanity_check (argP optP : List (String × ClickParam))
    (anns : List (String × Ann)) (dfls : List (String × PyVal))
    (kwargs : List (String × PyVal)) : Except BindError MethodParams :=
  let possible := possibleParams argP optP
  match processKwargs possible argP optP anns dfls kwargs [] [] none with
  | .error e => .error e
  | .ok (args, options, _) =>
    match checkRequired args options possible with
    | .error e => .error e
    | .ok _ => .ok { args := some args, options := some options }

/-- The cli name of the first required-and-unbound declaration, used to
characterise `checkRequired` (`headD ""` is safe under the side
condition that every declaration has a nonempty `opts`). -/
def firstMissing (args options : List (String × PyVal)) :
    List (String × ClickParam) → Option String
  | [] => none
  | (_, p) :: rest =>
    let cli := stripDashes (p.opts.headD "")
    if ((odLookup args cli).isNone && (odLookup options cli).isNone) && p.required then
      some cli
    else
      firstMissing args options rest

/-! ## Token emission (`MetaflowAPI.execute`)

`execute` walks `final_chain` and, per chain entry, appends the command
name, the positional values (list values element by element, *without*
`str(..)`), then the option flags.  `components` is therefore a list of
Python values, all of which are strings in normal use. -/

/-- Loop `for _, v in args.items()`: list values are appended element by
element, scalars as-is (no stringification for positionals). -/
def argTokens : List (String × PyVal) → List PyVal
  | [] => []
  | (_, v) :: rest =>
    (match v with
     | .vList l => l
     | v => [v]) ++ argTokens rest

/-- The `for i in v` inner loop for a multi-valued option: one
`--name value` pair per element, values via `str(i)`. -/
def listFlagPairs (k : String) : List PyVal → List PyVal
  | [] => []
  | i :: rest =>
      PyVal.vStr ("--" ++ k) :: PyVal.vStr (pyStr i) :: listFlagPairs k rest

/-- Loop `for k, v in options.items()`: repeat the pair for list values;
otherwise emit `--name` and, unless the value is the boolean-flag
marker `"flag"`, its `str(..)` form. -/
def optionTokens : List (String × PyVal) → List PyVal
  | [] => []
  | (k, v) :: rest =>
    (match v with
     | .vList l => listFlagPairs k l
     | v =>
        PyVal.vStr ("--" ++ k) ::
          (if pyIsFlagMarker v then [] else [PyVal.vStr (pyStr v)])) ++
      optionTokens rest

/-- Tokens of a single chain entry: the command name, then
`args = params.pop("args", {})` and `options = params.pop("options", {})`
emissions. -/
def entryTokens (cmd : String) (mp : MethodParams) : List PyVal :=
  PyVal.vStr cmd :: (argTokens (mp.args.getD []) ++ optionTokens (mp.options.getD []))

/-- Walk one object's chain: emit each entry's tokens and return the
chain as left behind by the two `pop`s (both keys removed). -/
def drainChain : List (String × MethodParams) →
    List (String × MethodParams) × List PyVal
  | [] => ([], [])
  | (cmd, mp) :: rest =>
    let (rest', toks) := drainChain rest
    ((cmd, { args := none, options := none }) :: rest', entryTokens cmd mp ++ toks)

/-! ## The object heap

`MetaflowAPI` instances are mutable Python objects linked by `_parent`
references; we model them as records stored in a heap addressed by
allocation order.  `attrs` holds the instance attributes installed by
`setattr` in `_lazy_load_command`. -/

/-- The kind of callable `_lazy_load_command` builds for a child node. -/
inductive MemberKind where
  | groupMember
  | commandMember
  deriving Repr, DecidableEq

/-- The `functools.partial(extract_…(cmd_obj, flow_parameters), _self)`
object: identified by its command name, kind and a unique allocation
id (two calls build two distinct partials). -/
structure Member where
  kind : MemberKind
  cmdName : String
  mid : Nat
  deriving Repr, DecidableEq

/-- A flow-class parameter as seen by `_compute_flow_parameters`:
`IS_CONFIG_PARAMETER` decides skipping, and `initDecl` is the parameter
as it stands after the external `param.init()` call. -/
structure FlowClsParam where
  IS_CONFIG_PARAMETER : Bool
  initDecl : FlowParam
  deriving Repr

/-- One `MetaflowAPI` instance: `_API_NAME`, `_chain`, `_parent`,
`_flow_cls`, `_cached_computed_parameters`, plus the lazily-installed
instance attributes. -/
structure APIObj where
  apiName : String
  chain : List (String × MethodParams)
  parentId : Option Nat
  flowCls : Option (List FlowClsParam)
  cachedParams : Option (List FlowParam)
  attrs : List (String × Member)
  deriving Repr

structure Heap where
  objs : List (Nat × APIObj)
  next : Nat
  deriving Repr

def emptyHeap : Heap := { objs := [], next := 0 }

def lookupObj (h : Heap) (i : Nat) : Option APIObj :=
  odLookup h.objs i

def updateObj (h : Heap) (i : Nat) (o : APIObj) : Heap :=
  { h with objs := odInsert h.objs i o }

/-- Source `MetaflowAPI.__init__`: allocate a fresh object whose chain starts
as `[{self._API_NAME: kwargs}]`. -/
def apiInit (h : Heap) (apiName : String) (parent : Option Nat)
    (flowCls : Option (List FlowClsParam)) (mp : MethodParams) : Heap × Nat :=
  let o : APIObj :=
    { apiName := apiName, chain := [(apiName, mp)], parentId := parent,
      flowCls := flowCls, cachedParams := none, attrs := [] }
  ({ objs := h.objs ++ [(h.next, o)], next := h.next + 1 }, h.next)

/-- The `while current.parent` loop of `execute`: the parents of an
object, nearest first.  `fuel` bounds the walk (heap parent links form
no cycle in any reachable heap; `h.next` is always enough fuel). -/
def parentList (h : Heap) : Nat → Nat → List Nat
  | 0, _ => []
  | fuel + 1, i =>
    match lookupObj h i with
    | none => []
    | some o =>
      match o.parentId with
      | none => []
      | some p => p :: parentList h fuel p

/-- Python `parents.reverse(); final_chain = parents' chains + self.chain`:
the objects whose chains `execute` walks, root first. -/
def execOrder (h : Heap) (i : Nat) : List Nat :=
  (parentList h h.next i).reverse ++ [i]

/-- Emission over the objects in order.  Each object's chain is drained
in the heap (the `pop`s in `execute` mutate the stored
`method_params`). -/
def execFold : List Nat → Heap → List PyVal → Heap × List PyVal
  | [], h, acc => (h, acc)
  | j :: rest, h, acc =>
    match lookupObj h j with
    | none => execFold rest h acc
    | some o =>
      let (c', toks) := drainChain o.chain
      execFold rest (updateObj h j { o with chain := c' }) (acc ++ toks)

/-- Source `MetaflowAPI.execute`: returns the token list and the heap after
the destructive walk. -/
def executeH (h : Heap) (i : Nat) : Heap × List PyVal :=
  execFold (execOrder h i) h []

/-! ## The compiled callables -/

/-- The root `_method` built by `MetaflowAPI.from_cli`: sanity-check the
kwargs against the root group's parameters, then construct the root
object (`parent=None`, the flow class attached, `_API_NAME` = the flow
file). -/
def from_cli_method (h : Heap) (flowFile : String) (flowCls : List FlowClsParam)
    (e : Extracted) (kwargs : List (String × PyVal)) :
    Heap × Except BindError Nat :=
  match _method_sanity_check e.arg_parameters e.opt_parameters e.annotations
      e.defaults kwargs with
  | .error err => (h, .error err)
  | .ok mp =>
    let (h', nid) := apiInit h flowFile none (some flowCls) mp
    (h', .ok nid)

/-- The `_method` built by `extract_group`: sanity-check, then construct
a new object one level deeper (`parent=_self`, `flow_cls=None`). -/
def group_method (h : Heap) (selfId : Nat) (groupName : String)
    (e : Extracted) (kwargs : List (String × PyVal)) :
    Heap × Except BindError Nat :=
  match _method_sanity_check e.arg_parameters e.opt_parameters e.annotations
      e.defaults kwargs with
  | .error err => (h, .error err)
  | .ok mp =>
    let (h', nid) := apiInit h groupName (some selfId) none mp
    (h', .ok nid)

/-- The `_method` built by `extract_command`: sanity-check, append
`{cmd_obj.name: method_params}` to `_self._chain` (mutating the object
it was invoked on), then `return _self.execute()`. -/
def command_method (h : Heap) (selfId : Nat) (cmdName : String)
    (e : Extracted) (kwargs : List (String × PyVal)) :
    Heap × Except BindError (List PyVal) :=
  match _method_sanity_check e.arg_parameters e.opt_parameters e.annotations
      e.defaults kwargs with
  | .error err => (h, .error err)
  | .ok mp =>
    match lookupObj h selfId with
    | none => (h, .error .internalKeyError)  -- unreachable: `_self` exists
    | some o =>
      let h1 := updateObj h selfId { o with chain := o.chain ++ [(cmdName, mp)] }
      let (h2, toks) := executeH h1 selfId
      (h2, .ok toks)

/-! ## Root-level flow parameters and lazy member loading -/

/-- The exceptions of `_compute_flow_parameters` / `_lazy_load_command`. -/
inductive ApiError where
  | invalidRootAccess   -- the RuntimeError for a non-start API
  | attributeNotFound   -- AttributeError for an unknown member name
  deriving Repr, DecidableEq

/-- Source `MetaflowAPI._compute_flow_parameters`: reject non-root access;
otherwise compute once (skipping config parameters, taking each
parameter after its `init()`) and cache forever. -/
def _compute_flow_parameters (h : Heap) (i : Nat) :
    Heap × Except ApiError (List FlowParam) :=
  match lookupObj h i with
  | none => (h, .error .invalidRootAccess)  -- unreachable: `self` exists
  | some o =>
    if o.flowCls.isNone || o.parentId.isSome then
      (h, .error .invalidRootAccess)
    else
      match o.cachedParams with
      | some c => (h, .ok c)
      | none =>
        let computed := (o.flowCls.getD []).filterMap
          (fun p => if p.IS_CONFIG_PARAMETER then none else some p.initDecl)
        (updateObj h i { o with cachedParams := some computed }, .ok computed)

/-- The `cli_collection.get_command(None, name)` outcome for each child, as
much of it as `_lazy_load_command` inspects. -/
def kindOfNode : Bool → MemberKind
  | true => .groupMember
  | false => .commandMember

/-- Source `_lazy_load_command` on a root object: resolve `flow_parameters` by
calling `_compute_flow_parameters`, look the name up in the command
collection, build the partial, `setattr` it, and return it; an unknown
name raises `AttributeError` (after the flow-parameter resolution has
already run). -/
def _lazy_load_command (h : Heap) (i : Nat)
    (cliCollection : List (String × Bool)) (name : String) :
    Heap × Except ApiError Member :=
  let (h1, r) := _compute_flow_parameters h i
  match r with
  | .error e => (h1, .error e)
  | .ok _ =>
    match odLookup cliCollection name with
    | none => (h1, .error .attributeNotFound)
    | some isGroup =>
      match lookupObj h1 i with
      | none => (h1, .error .attributeNotFound)  -- unreachable: `_self` exists
      | some o =>
        let m : Member := { kind := kindOfNode isGroup, cmdName := name, mid := h1.next }
        let h2 : Heap :=
          { objs := odInsert h1.objs i { o with attrs := odInsert o.attrs name m },
            next := h1.next + 1 }
        (h2, .ok m)

/-- Python `__getattr__` dispatch: an instance attribute installed by a prior
`setattr` is found without calling `__getattr__`; otherwise
`_lazy_load_command` runs. -/
def getattrH (h : Heap) (i : Nat) (cliCollection : List (String × Bool))
    (name : String) : Heap × Except ApiError Member :=
  match lookupObj h i with
  | none => (h, .error .attributeNotFound)
  | some o =>
    match odLookup o.attrs name with
    | some m => (h, .ok m)
    | none => _lazy_load_command h i cliCollection name

/-! ## The concrete CLI surface of the end-to-end example

Declarations `{metadata: optional string, tags: multiple string,
decospecs: multiple string, max-workers: optional integer}`: `metadata`
on the root group, the rest on the leaf command `run`. -/

def metadataParam : ClickParam :=
  { name := "metadata", isArgument := false, opts := ["--metadata"],
    secondary_opts := [], is_bool_flag := false, required := false,
    multiple := false, nargs := 1, ptype := .stringParam, default := PyVal.vNone }

def tagsParam : ClickParam :=
  { name := "tags", isArgument := false, opts := ["--tags"],
    secondary_opts := [], is_bool_flag := false, required := false,
    multiple := true, nargs := 1, ptype := .stringParam,
    default := PyVal.vList [] }

def decospecsParam : ClickParam :=
  { name := "decospecs", isArgument := false, opts := ["--decospecs"],
    secondary_opts := [], is_bool_flag := false, required := false,
    multiple := true, nargs := 1, ptype := .stringParam,
    default := PyVal.vList [] }

def maxWorkersParam : ClickParam :=
  { name := "max_workers", isArgument := false, opts := ["--max-workers"],
    secondary_opts := [], is_bool_flag := false, required := false,
    multiple := false, nargs := 1, ptype := .intParam, default := PyVal.vInt 16 }

def runCommand : ClickCommand :=
  { cname := "run", params := [tagsParam, decospecsParam, maxWorkersParam],
    has_flow_params := true }

def rootExtracted : Extracted := extract_all_params [metadataParam]

/-- Command `run` compiled with an empty flow-parameter list (the example flow
class declares no parameters). -/
def runExtracted : Extracted := (extract_command runCommand []).2

/-- Call `api(metadata="local")`: the root object (id 0). -/
def exampleHeap1 : Heap :=
  (from_cli_method emptyHeap "flow.py" [] rootExtracted
    [("metadata", PyVal.vStr "local")]).1

def exampleRunKwargs : List (String × PyVal) :=
  [("tags", PyVal.vList [PyVal.vStr "abc", PyVal.vStr "def"]),
   ("decospecs", PyVal.vList [PyVal.vStr "kubernetes"]),
   ("max_workers", PyVal.vInt 5)]

/-- Call `.run(tags=["abc","def"], decospecs=["kubernetes"], max_workers=5)`. -/
def exampleRunResult : Heap × Except BindError (List PyVal) :=
  command_method exampleHeap1 0 "run" runExtracted exampleRunKwargs

/-- The token sequence the claim expects the serializer to return. -/
def claimedTokens : List PyVal :=
  [PyVal.vStr "--metadata", PyVal.vStr "local", PyVal.vStr "run",
   PyVal.vStr "--tags", PyVal.vStr "abc", PyVal.vStr "--tags", PyVal.vStr "def",
   PyVal.vStr "--decospecs", PyVal.vStr "kubernetes",
   PyVal.vStr "--max-workers", PyVal.vStr "5"]

/-! ## Supporting definitions for the proofs -/

def argSigPairs (ps : List ClickParam) : List (String × SigParam) :=
  ps.filterMap (fun p =>
    if p.isArgument then some (p.name, get_inspect_param_obj p .positionalOnly) else none)

def optSigPairs (ps : List ClickParam) : List (String × SigParam) :=
  ps.filterMap (fun p =>
    if p.isArgument then none else some (p.name, get_inspect_param_obj p .keywordOnly))

def argParamPairs (ps : List ClickParam) : List (String × ClickParam) :=
  ps.filterMap (fun p => if p.isArgument then some (p.name, p) else none)

def optParamPairs (ps : List ClickParam) : List (String × ClickParam) :=
  ps.filterMap (fun p => if p.isArgument then none else some (p.name, p))

def annPairs (ps : List ClickParam) : List (String × Ann) :=
  ps.map (fun p => (p.name, annOf p))

def dflPairs (ps : List ClickParam) : List (String × PyVal) :=
  ps.map (fun p => (p.name, p.default))

/-- One heap entry is well formed: its id is below the allocation
counter and its parent link points to a strictly earlier allocation. -/
def objWF (next : Nat) (p : Nat × APIObj) : Bool :=
  decide (p.1 < next) &&
    match p.2.parentId with
    | none => true
    | some q => decide (q < p.1)

/-- Well-formedness of a heap (invariant under every operation of the
module — objects receive their parent at construction time and parent
links are never reassigned). -/
def HeapWF (h : Heap) : Prop :=
  ∀ p ∈ h.objs, objWF h.next p = true

/-- The subgroup `kubernetes` declares no parameters of its own. -/
def kubernetesExtracted : Extracted := extract_all_params []

/-- Call `api(metadata="local").kubernetes()`: the sibling chain object
(id 1) under the root (id 0). -/
def c3HeapWithSibling : Heap :=
  (group_method exampleHeap1 0 "kubernetes" kubernetesExtracted []).1

/-- The heap after the sibling chain (id 1) has been serialized once. -/
def c3HeapDrained : Heap := (executeH c3HeapWithSibling 1).1

/-- The heap after additionally invoking the Leaf sibling `run` on the
same parent object (id 0). -/
def c3HeapLeafInvoked : Heap :=
  (command_method c3HeapDrained 0 "run" runExtracted []).1

/-- A flow-level parameter used to exercise command augmentation. -/
def flowAlphaParam : FlowParam :=
  { pname := "alpha", required := false, multiple := false, flagLike := false,
    ptype := .intParam, default := PyVal.vInt 3 }

/-- The binding `run`'s sanity check produces for the example kwargs. -/
def runSanity : Except BindError MethodParams :=
  _method_sanity_check runExtracted.arg_parameters runExtracted.opt_parameters
    runExtracted.annotations runExtracted.defaults exampleRunKwargs

def runMp : MethodParams :=
  match runSanity with
  | .ok mp => mp
  | .error _ => { args := none, options := none }

/-- The heap holding the fully-built (not yet serialized) chain
`api(metadata="local")` + leaf entry `run`, as `command_method` builds
it just before calling `execute`. -/
def c8BuiltHeap : Heap :=
  match lookupObj exampleHeap1 0 with
  | some o => updateObj exampleHeap1 0 { o with chain := o.chain ++ [("run", runMp)] }
  | none => exampleHeap1

/-- The root object stored in `c8BuiltHeap`. -/
def c8BuiltRoot : APIObj :=
  { apiName := "flow.py",
    chain := [("flow.py",
        { args := some [], options := some [("metadata", PyVal.vStr "local")] }),
      ("run", runMp)],
    parentId := none, flowCls := some [], cachedParams := none, attrs := [] }

/-- The parameter set `_compute_flow_parameters` derives from a flow
class's parameter list. -/
def computedFlowParams (fc : List FlowClsParam) : List FlowParam :=
  fc.filterMap (fun p => if p.IS_CONFIG_PARAMETER then none else some p.initDecl)

/-- The `functools.partial` object `_lazy_load_command` builds. -/
def builtMember (isGroup : Bool) (name : String) (mid : Nat) : Member :=
  { kind := kindOfNode isGroup, cmdName := name, mid := mid }

/-- The heap after `setattr(_self, name, result)`. -/
def setattrHeap (h1 : Heap) (i : Nat) (o1 : APIObj) (name : String) (m : Member) :
    Heap :=
  { objs := odInsert h1.objs i { o1 with attrs := odInsert o1.attrs name m },
    next := h1.next + 1 }

/-- The object as it stands after the flow-parameter cache is filled. -/
def withCache (o : APIObj) (ps : List FlowParam) : APIObj :=
  { o with cachedParams := some ps }

/-- The child commands of the example root CLI group, with their
group/command kinds. -/
def exampleCli : List (String × Bool) := [("run", false), ("kubernetes", true)]

/-- The root object stored at id 0 of `exampleHeap1`. -/
def exampleRoot : APIObj :=
  { apiName := "flow.py",
    chain := [("flow.py",
        { args := some [], options := some [("metadata", PyVal.vStr "local")] })],
    parentId := none, flowCls := some [], cachedParams := none, attrs := [] }

/-- A plain optional integer option used in binder scenarios. -/
def alphaOptParam : ClickParam :=
  { name := "alpha", isArgument := false, opts := ["--alpha"],
    secondary_opts := [], is_bool_flag := false, required := false,
    multiple := false, nargs := 1, ptype := .intParam, default := PyVal.vInt 0 }

/-- A required integer option that *does* carry a usable default. -/
def reqAlphaParam : ClickParam :=
  { name := "alpha", isArgument := false, opts := ["--alpha"],
    secondary_opts := [], is_bool_flag := false, required := true,
    multiple := false, nargs := 1, ptype := .intParam, default := PyVal.vInt 5 }

/-- A required boolean flag with no secondary spelling. -/
def reqCleanupParam : ClickParam :=
  { name := "cleanup", isArgument := false, opts := ["--cleanup"],
    secondary_opts := [], is_bool_flag := true, required := true,
    multiple := false, nargs := 1, ptype := .boolParam, default := PyVal.vBool true }

/-- A required boolean flag that has both spellings. -/
def reqVerboseParam : ClickParam :=
  { name := "verbose", isArgument := false, opts := ["--verbose"],
    secondary_opts := ["--no-verbose"], is_bool_flag := true, required := true,
    multiple := false, nargs := 1, ptype := .boolParam,
    default := PyVal.vBool true }

/-- A boolean flag `--foo` with secondary spelling `--no-foo`. -/
def boolFooParam : ClickParam :=
  { name := "foo", isArgument := false, opts := ["--foo"],
    secondary_opts := ["--no-foo"], is_bool_flag := true, required := false,
    multiple := false, nargs := 1, ptype := .boolParam,
    default := PyVal.vBool false }

section OdLemmas

variable {α : Type u} {β : Type v} [DecidableEq α]

theorem odLookup_odInsert_self (l : List (α × β)) (k : α) (v : β) :
    odLookup (odInsert l k v) k = some v := by
  induction l with
  | nil => simp [odInsert, odLookup]
  | cons kv rest ih =>
    by_cases h : kv.1 = k
    · simp [odInsert, odLookup, h]
    · simp [odInsert, odLookup, h, ih]

theorem odLookup_odInsert_ne (l : List (α × β)) (k' k : α) (v : β) (h : k' ≠ k) :
    odLookup (odInsert l k' v) k = odLookup l k := by
  induction l with
  | nil => simp [odInsert, odLookup, h]
  | cons kv rest ih =>
    obtain ⟨k0, v0⟩ := kv
    by_cases h1 : k0 = k'
    · subst h1
      simp [odInsert, odLookup, h]
    · simp [odInsert, odLookup, h1, ih]

theorem odInsert_of_lookup_eq (l : List (α × β)) (k : α) (v : β)
    (h : odLookup l k = some v) : odInsert l k v = l := by
  induction l with
  | nil => simp [odLookup] at h
  | cons kv rest ih =>
    by_cases h1 : kv.1 = k
    · obtain ⟨k0, v0⟩ := kv
      simp only at h1
      subst h1
      simp [odLookup] at h
      simp [odInsert, h]
    · simp [odLookup, h1] at h
      simp [odInsert, h1, ih h]

theorem odLookup_mem (l : List (α × β)) (k : α) (v : β)
    (h : odLookup l k = some v) : (k, v) ∈ l := by
  induction l with
  | nil => simp [odLookup] at h
  | cons kv rest ih =>
    by_cases h1 : kv.1 = k
    · obtain ⟨k0, v0⟩ := kv
      simp only at h1
      subst h1
      simp [odLookup] at h
      simp [h]
    · simp [odLookup, h1] at h
      exact List.mem_cons_of_mem _ (ih h)

theorem odLookup_append_ne (l : List (α × β)) (n : α) (o : β) (j : α) (h : j ≠ n) :
    odLookup (l ++ [(n, o)]) j = odLookup l j := by
  induction l with
  | nil => simp [odLookup, Ne.symm h]
  | cons kv rest ih =>
    by_cases h1 : kv.1 = j
    · simp [odLookup, h1]
    · simp [odLookup, h1, ih]

theorem odUpdList_cons (l : List (α × β)) (k : α) (v : β) (u : List (α × β)) :
    odUpdList l ((k, v) :: u) = odUpdList (odInsert l k v) u := rfl

theorem odUpdList_append (l u₁ u₂ : List (α × β)) :
    odUpdList l (u₁ ++ u₂) = odUpdList (odUpdList l u₁) u₂ :=
  List.foldl_append _ _ _ _

theorem odLookup_odUpdList_not_mem (l u : List (α × β)) (k : α)
    (h : k ∉ odKeys u) : odLookup (odUpdList l u) k = odLookup l k := by
  induction u generalizing l with
  | nil => rfl
  | cons kv u' ih =>
    obtain ⟨k', v'⟩ := kv
    simp only [show odKeys ((k', v') :: u') = k' :: odKeys u' from rfl,
      List.mem_cons, not_or] at h
    rw [odUpdList_cons, ih _ h.2, odLookup_odInsert_ne _ _ _ _ (Ne.symm h.1)]

theorem odUpdList_idem (u : List (α × β)) (l : List (α × β))
    (h : (odKeys u).Nodup) : odUpdList (odUpdList l u) u = odUpdList l u := by
  induction u generalizing l with
  | nil => rfl
  | cons kv u' ih =>
    obtain ⟨k, v⟩ := kv
    simp only [show odKeys ((k, v) :: u') = k :: odKeys u' from rfl,
      List.nodup_cons] at h
    have hlk : odLookup (odUpdList (odInsert l k v) u') k = some v := by
      rw [odLookup_odUpdList_not_mem _ _ _ h.1, odLookup_odInsert_self]
    rw [odUpdList_cons, odUpdList_cons, odInsert_of_lookup_eq _ _ _ hlk]
    exact ih _ h.2

end OdLemmas

/-! ## Characterisation of `extract_all_params` -/

theorem extractLoop_spec (ps : List ClickParam) (acc : Extracted) :
    extractLoop ps acc =
      { arg_params_sigs := odUpdList acc.arg_params_sigs (argSigPairs ps),
        opt_params_sigs := odUpdList acc.opt_params_sigs (optSigPairs ps),
        params_sigs := acc.params_sigs,
        arg_parameters := odUpdList acc.arg_parameters (argParamPairs ps),
        opt_parameters := odUpdList acc.opt_parameters (optParamPairs ps),
        annotations := odUpdList acc.annotations (annPairs ps),
        defaults := odUpdList acc.defaults (dflPairs ps) } := by
  induction ps generalizing acc with
  | nil => rfl
  | cons p rest ih =>
    by_cases hp : p.isArgument
    · simp [extractLoop, hp, ih, argSigPairs, optSigPairs, argParamPairs,
        optParamPairs, annPairs, dflPairs, odUpdList_cons]
    · simp [extractLoop, hp, ih, argSigPairs, optSigPairs, argParamPairs,
        optParamPairs, annPairs, dflPairs, odUpdList_cons]

theorem extract_all_params_spec (ps : List ClickParam) :
    extract_all_params ps =
      { arg_params_sigs := odUpdList [] (argSigPairs ps),
        opt_params_sigs := odUpdList [] (optSigPairs ps),
        params_sigs := odUpdList (odUpdList [] (odUpdList [] (argSigPairs ps)))
          (odUpdList [] (optSigPairs ps)),
        arg_parameters := odUpdList [] (argParamPairs ps),
        opt_parameters := odUpdList [] (optParamPairs ps),
        annotations := odUpdList [] (annPairs ps),
        defaults := odUpdList [] (dflPairs ps) } := by
  rw [extract_all_params, extractLoop_spec]
  simp [emptyExtracted]

theorem odUpdList_double {α : Type u} {β : Type v} [DecidableEq α]
    (a b : List (α × β)) (h : (odKeys a).Nodup) :
    odUpdList ([] : List (α × β)) (a ++ (a ++ b)) = odUpdList [] (a ++ b) := by
  rw [odUpdList_append, odUpdList_append, odUpdList_idem _ _ h, ← odUpdList_append]

theorem argSigPairs_append (x y : List ClickParam) :
    argSigPairs (x ++ y) = argSigPairs x ++ argSigPairs y :=
  List.filterMap_append _ _ _

theorem optSigPairs_append (x y : List ClickParam) :
    optSigPairs (x ++ y) = optSigPairs x ++ optSigPairs y :=
  List.filterMap_append _ _ _

theorem argParamPairs_append (x y : List ClickParam) :
    argParamPairs (x ++ y) = argParamPairs x ++ argParamPairs y :=
  List.filterMap_append _ _ _

theorem optParamPairs_append (x y : List ClickParam) :
    optParamPairs (x ++ y) = optParamPairs x ++ optParamPairs y :=
  List.filterMap_append _ _ _

theorem annPairs_append (x y : List ClickParam) :
    annPairs (x ++ y) = annPairs x ++ annPairs y :=
  List.map_append _ _ _

theorem dflPairs_append (x y : List ClickParam) :
    dflPairs (x ++ y) = dflPairs x ++ dflPairs y :=
  List.map_append _ _ _

theorem argSigPairs_all_opt :
    ∀ u : List ClickParam, (∀ p ∈ u, p.isArgument = false) → argSigPairs u = []
  | [], _ => rfl
  | p :: rest, hu => by
    have hp := hu p (List.mem_cons_self p rest)
    have ih := argSigPairs_all_opt rest (fun q hq => hu q (List.mem_cons_of_mem p hq))
    rw [show argSigPairs (p :: rest) = argSigPairs rest by
      simp [argSigPairs, List.filterMap_cons, hp]]
    exact ih

theorem argParamPairs_all_opt :
    ∀ u : List ClickParam, (∀ p ∈ u, p.isArgument = false) → argParamPairs u = []
  | [], _ => rfl
  | p :: rest, hu => by
    have hp := hu p (List.mem_cons_self p rest)
    have ih := argParamPairs_all_opt rest (fun q hq => hu q (List.mem_cons_of_mem p hq))
    rw [show argParamPairs (p :: rest) = argParamPairs rest by
      simp [argParamPairs, List.filterMap_cons, hp]]
    exact ih

theorem optSigPairs_keys :
    ∀ u : List ClickParam, (∀ p ∈ u, p.isArgument = false) →
      odKeys (optSigPairs u) = u.map ClickParam.name
  | [], _ => rfl
  | p :: rest, hu => by
    have hp := hu p (List.mem_cons_self p rest)
    have ih := optSigPairs_keys rest (fun q hq => hu q (List.mem_cons_of_mem p hq))
    rw [show optSigPairs (p :: rest)
        = (p.name, get_inspect_param_obj p .keywordOnly) :: optSigPairs rest by
      simp [optSigPairs, List.filterMap_cons, hp]]
    simpa [odKeys] using ih

theorem optParamPairs_keys :
    ∀ u : List ClickParam, (∀ p ∈ u, p.isArgument = false) →
      odKeys (optParamPairs u) = u.map ClickParam.name
  | [], _ => rfl
  | p :: rest, hu => by
    have hp := hu p (List.mem_cons_self p rest)
    have ih := optParamPairs_keys rest (fun q hq => hu q (List.mem_cons_of_mem p hq))
    rw [show optParamPairs (p :: rest) = (p.name, p) :: optParamPairs rest by
      simp [optParamPairs, List.filterMap_cons, hp]]
    simpa [odKeys] using ih

theorem annPairs_keys (u : List ClickParam) :
    odKeys (annPairs u) = u.map ClickParam.name := by
  simp [annPairs, odKeys, List.map_map]

theorem dflPairs_keys (u : List ClickParam) :
    odKeys (dflPairs u) = u.map ClickParam.name := by
  simp [dflPairs, odKeys, List.map_map]

/-- Extracting the same parameter list with its augmentation prefix
repeated collapses to a single copy: every dict is keyed by parameter
name, so the second copy overwrites the first in place with the same
values. -/
theorem extract_all_params_double (u ps : List ClickParam)
    (hu : ∀ p ∈ u, p.isArgument = false)
    (hnd : (u.map ClickParam.name).Nodup) :
    extract_all_params (u ++ (u ++ ps)) = extract_all_params (u ++ ps) := by
  have hArgSig : argSigPairs (u ++ (u ++ ps)) = argSigPairs (u ++ ps) := by
    rw [argSigPairs_append, argSigPairs_append, argSigPairs_all_opt u hu]
    simp
  have hArgPar : argParamPairs (u ++ (u ++ ps)) = argParamPairs (u ++ ps) := by
    rw [argParamPairs_append, argParamPairs_append, argParamPairs_all_opt u hu]
    simp
  have hOptSig : odUpdList [] (optSigPairs (u ++ (u ++ ps)))
      = odUpdList [] (optSigPairs (u ++ ps)) := by
    rw [optSigPairs_append, optSigPairs_append]
    exact odUpdList_double _ _ (by rw [optSigPairs_keys u hu]; exact hnd)
  have hOptPar : odUpdList [] (optParamPairs (u ++ (u ++ ps)))
      = odUpdList [] (optParamPairs (u ++ ps)) := by
    rw [optParamPairs_append, optParamPairs_append]
    exact odUpdList_double _ _ (by rw [optParamPairs_keys u hu]; exact hnd)
  have hAnn : odUpdList [] (annPairs (u ++ (u ++ ps)))
      = odUpdList [] (annPairs (u ++ ps)) := by
    rw [annPairs_append, annPairs_append]
    exact odUpdList_double _ _ (by rw [annPairs_keys u]; exact hnd)
  have hDfl : odUpdList [] (dflPairs (u ++ (u ++ ps)))
      = odUpdList [] (dflPairs (u ++ ps)) := by
    rw [dflPairs_append, dflPairs_append]
    exact odUpdList_double _ _ (by rw [dflPairs_keys u]; exact hnd)
  rw [extract_all_params_spec, extract_all_params_spec, hArgSig, hArgPar,
    hOptSig, hOptPar, hAnn, hDfl]

/-! ## Heap lemmas -/

theorem lookupObj_updateObj_self (h : Heap) (i : Nat) (o : APIObj) :
    lookupObj (updateObj h i o) i = some o :=
  odLookup_odInsert_self _ _ _

theorem lookupObj_updateObj_ne (h : Heap) (i j : Nat) (o : APIObj) (hne : i ≠ j) :
    lookupObj (updateObj h i o) j = lookupObj h j :=
  odLookup_odInsert_ne _ _ _ _ hne

/-- The parent walk only depends on the objects below the allocation
counter, with any sufficient fuel. -/
theorem parentList_congr (h h' : Heap) (hwf : HeapWF h)
    (hagree : ∀ k, k < h.next → lookupObj h' k = lookupObj h k) :
    ∀ j, j < h.next → ∀ fuel₁ fuel₂, j + 1 ≤ fuel₁ → j + 1 ≤ fuel₂ →
      parentList h' fuel₁ j = parentList h fuel₂ j := by
  intro j
  induction j using Nat.strong_induction_on with
  | _ j ih =>
    intro hj fuel₁ fuel₂ hf₁ hf₂
    obtain ⟨f₁, rfl⟩ : ∃ f₁, fuel₁ = f₁ + 1 := ⟨fuel₁ - 1, by omega⟩
    obtain ⟨f₂, rfl⟩ : ∃ f₂, fuel₂ = f₂ + 1 := ⟨fuel₂ - 1, by omega⟩
    cases holo : lookupObj h j with
    | none => simp only [parentList, hagree j hj, holo]
    | some o =>
      cases hop : o.parentId with
      | none => simp only [parentList, hagree j hj, holo, hop]
      | some p =>
        have hwfp := hwf _ (odLookup_mem _ _ _ holo)
        simp [objWF, hop] at hwfp
        have hp : p < j := hwfp.2
        simp only [parentList, hagree j hj, holo, hop]
        rw [ih p hp (hp.trans hj) f₁ f₂ (by omega) (by omega)]

/-- Every id the parent walk produces is below the allocation counter. -/
theorem parentList_mem_lt (h : Heap) (hwf : HeapWF h) :
    ∀ fuel j, j < h.next → ∀ q ∈ parentList h fuel j, q < h.next := by
  intro fuel
  induction fuel with
  | zero => intro j _ q hq; simp [parentList] at hq
  | succ f ih =>
    intro j hj q hq
    cases holo : lookupObj h j with
    | none => simp [parentList, holo] at hq
    | some o =>
      cases hop : o.parentId with
      | none => simp [parentList, holo, hop] at hq
      | some p =>
        simp only [parentList, holo, hop] at hq
        have hwfp := hwf _ (odLookup_mem _ _ _ holo)
        simp [objWF, hop] at hwfp
        have hp : p < j := hwfp.2
        rcases List.mem_cons.mp hq with hq | hq
        · omega
        · exact ih p (hp.trans hj) q hq

/-- The emitted tokens only depend on the objects at the visited ids. -/
theorem execFold_tokens_congr :
    ∀ (L : List Nat) (h₁ h₂ : Heap) (acc : List PyVal),
      (∀ k ∈ L, lookupObj h₁ k = lookupObj h₂ k) →
      (execFold L h₁ acc).2 = (execFold L h₂ acc).2
  | [], _, _, _, _ => rfl
  | j :: rest, h₁, h₂, acc, hagree => by
    rw [execFold, execFold, hagree j (List.mem_cons_self j rest)]
    cases ho : lookupObj h₂ j with
    | none =>
      exact execFold_tokens_congr rest h₁ h₂ acc
        (fun k hk => hagree k (List.mem_cons_of_mem j hk))
    | some o =>
      exact execFold_tokens_congr rest _ _ _ (by
        intro k hk
        by_cases hkj : j = k
        · subst hkj
          rw [lookupObj_updateObj_self, lookupObj_updateObj_self]
        · rw [lookupObj_updateObj_ne _ _ _ _ hkj, lookupObj_updateObj_ne _ _ _ _ hkj]
          exact hagree k (List.mem_cons_of_mem j hk))

/-- Draining an entry leaves `(cmd, {args := none, options := none})`. -/
theorem drainChain_fst (c : List (String × MethodParams)) :
    (drainChain c).1 = c.map (fun e => (e.1, MethodParams.mk none none)) := by
  induction c with
  | nil => rfl
  | cons e rest ih =>
    obtain ⟨cmd, mp⟩ := e
    simp [drainChain, ih]

/-- Serializing an already-drained chain emits only the command names. -/
theorem drainChain_drained (c : List (String × MethodParams)) :
    drainChain (c.map (fun e => (e.1, MethodParams.mk none none)))
      = (c.map (fun e => (e.1, MethodParams.mk none none)),
         c.map (fun e => PyVal.vStr e.1)) := by
  induction c with
  | nil => rfl
  | cons e rest ih =>
    obtain ⟨cmd, mp⟩ := e
    simp [drainChain, ih, entryTokens, argTokens, optionTokens]

/-! ## Further concrete scenario objects -/

/-! ## Claims -/

/-- Claim C1 (counterexample).  The end-to-end chain
`api(metadata="local").run(tags=["abc","def"], decospecs=["kubernetes"],
max_workers=5)` does *not* serialize to
`["--metadata", "local", "run", "--tags", "abc", "--tags", "def",
"--decospecs", "kubernetes", "--max-workers", "5"]`: `execute` first
appends the root chain entry's command name — the root's `_API_NAME`,
i.e. the flow file — so the produced token list has an extra leading
token. -/
theorem C1_counterexample : exampleRunResult.2 ≠ Except.ok claimedTokens := by
  have h : exampleRunResult.2 = Except.ok (PyVal.vStr "flow.py" :: claimedTokens) := rfl
  rw [h]
  intro hc
  injection hc with hc
  have hl := congrArg List.length hc
  simp [claimedTokens] at hl

/-- Claim C1 (amended).  The serializer returns exactly the root object's
name token (the flow file, here `"flow.py"`) followed by the claimed
sequence: root name, root flags, leaf name `run`, then the leaf's own
flags in supplied order. -/
theorem C1_amended :
    exampleRunResult.2 = Except.ok (PyVal.vStr "flow.py" :: claimedTokens) := rfl

/-- Claim C2 (counterexample).  Compiling a leaf command that accepts flow
parameters *modifies the input metadata*: `extract_command` inserts the
flow options at the front of `cmd_obj.params` in place, so the command
object after compilation differs from the input (here: 4 parameters
instead of 3). -/
theorem C2_counterexample :
    (extract_command runCommand [flowAlphaParam]).1 ≠ runCommand := by
  intro h
  have hlen : (extract_command runCommand [flowAlphaParam]).1.params.length
      = runCommand.params.length := by rw [h]
  have h4 : (extract_command runCommand [flowAlphaParam]).1.params.length = 4 := rfl
  have h3 : runCommand.params.length = 3 := rfl
  rw [h4, h3] at hlen
  omega

/-- Claim C2 (amended).  Compilation of a command's parameters is
deterministic in its outputs — compiling the same command a second time
(over the metadata as left behind by the first compilation, which has
the flow options already prepended) yields identical parameter dicts,
signature order, annotations and defaults, because every dict is keyed
by parameter name and the repeated prefix overwrites itself in place.
However, compilation is *not* side-effect-free: it modifies augmentable
leaf nodes of the input metadata tree (the counterexample). -/
theorem C2_amended (cmd : ClickCommand) (F : List FlowParam)
    (hnd : (F.map FlowParam.pname).Nodup) :
    (extract_command (extract_command cmd F).1 F).2 = (extract_command cmd F).2 := by
  by_cases hf : cmd.has_flow_params = true
  · have h1 : (extract_command cmd F).1
        = { cmd with params := F.map flowParamToOption ++ cmd.params } := by
      simp [extract_command, hf]
    rw [h1]
    have h2 : (extract_command { cmd with
          params := F.map flowParamToOption ++ cmd.params } F).2
        = extract_all_params (F.map flowParamToOption
            ++ (F.map flowParamToOption ++ cmd.params)) := by
      simp [extract_command, hf]
    have h3 : (extract_command cmd F).2
        = extract_all_params (F.map flowParamToOption ++ cmd.params) := by
      simp [extract_command, hf]
    rw [h2, h3]
    exact extract_all_params_double (F.map flowParamToOption) cmd.params
      (fun p hp => by
        obtain ⟨fp, _, rfl⟩ := List.mem_map.mp hp
        rfl)
      (by simpa [List.map_map, Function.comp, flowParamToOption] using hnd)
  · simp [extract_command, hf]

/-- Claim C2 (witness): the amended determinism theorem applied to the
concrete `run` command and one flow parameter. -/
theorem C2_witness :
    (extract_command (extract_command runCommand [flowAlphaParam]).1
        [flowAlphaParam]).2
      = (extract_command runCommand [flowAlphaParam]).2 :=
  C2_amended runCommand [flowAlphaParam] (by simp)

/-- Claim C3 (counterexample).  Invoking a *Leaf* sibling member (`run`)
on the parent object does alter the previously-created sibling chain:
the leaf invocation appends a new entry to the parent's `_chain`
(the parent's chain grows from one entry to two), and serializing the
sibling chain (id 1) afterwards produces a different token sequence
(`["flow.py", "run", "kubernetes"]` instead of
`["flow.py", "kubernetes"]`). -/
theorem C3_counterexample :
    (executeH c3HeapLeafInvoked 1).2 ≠ (executeH c3HeapDrained 1).2 ∧
    (lookupObj c3HeapLeafInvoked 0).map (fun o => o.chain.length)
      ≠ (lookupObj c3HeapDrained 0).map (fun o => o.chain.length) := by
  constructor
  · have h1 : (executeH c3HeapLeafInvoked 1).2
        = [PyVal.vStr "flow.py", PyVal.vStr "run", PyVal.vStr "kubernetes"] := rfl
    have h2 : (executeH c3HeapDrained 1).2
        = [PyVal.vStr "flow.py", PyVal.vStr "kubernetes"] := rfl
    rw [h1, h2]
    intro hc
    have hl := congrArg List.length hc
    simp at hl
  · have h1 : (lookupObj c3HeapLeafInvoked 0).map (fun o => o.chain.length)
        = some 2 := rfl
    have h2 : (lookupObj c3HeapDrained 0).map (fun o => o.chain.length)
        = some 1 := rfl
    rw [h1, h2]
    simp

/-- Claim C3 (amended).  Invoking a sibling *Group* member on the same
parent object mutates nothing that exists: every already-allocated
object (in particular the parent and every node of a previously-created
sibling chain) is unchanged in the heap, and consequently the token
sequence any existing chain serializes to is unchanged.  (Leaf sibling
invocation, by contrast, appends to the parent's chain — the
counterexample.) -/
theorem C3_amended (h : Heap) (selfId : Nat) (gname : String) (e : Extracted)
    (kwargs : List (String × PyVal)) (j : Nat) (hwf : HeapWF h) (hj : j < h.next) :
    lookupObj (group_method h selfId gname e kwargs).1 j = lookupObj h j ∧
    (executeH (group_method h selfId gname e kwargs).1 j).2 = (executeH h j).2 := by
  cases hmsc : _method_sanity_check e.arg_parameters e.opt_parameters e.annotations
      e.defaults kwargs with
  | error err => simp [group_method, hmsc]
  | ok mp =>
    have hh' : (group_method h selfId gname e kwargs).1
        = { objs := h.objs ++ [(h.next,
              { apiName := gname, chain := [(gname, mp)], parentId := some selfId,
                flowCls := none, cachedParams := none, attrs := [] })],
            next := h.next + 1 } := by
      simp [group_method, hmsc, apiInit]
    have hpres : ∀ k, k < h.next →
        lookupObj (group_method h selfId gname e kwargs).1 k = lookupObj h k := by
      intro k hk
      rw [hh']
      exact odLookup_append_ne _ _ _ _ (by omega)
    refine ⟨hpres j hj, ?_⟩
    have hnext : (group_method h selfId gname e kwargs).1.next = h.next + 1 := by
      rw [hh']
    have horder : execOrder (group_method h selfId gname e kwargs).1 j
        = execOrder h j := by
      rw [execOrder, execOrder, hnext,
        parentList_congr h _ hwf hpres j hj (h.next + 1) h.next (by omega) (by omega)]
    rw [executeH, executeH, horder]
    apply execFold_tokens_congr
    intro k hk
    rcases List.mem_append.mp hk with hk | hk
    · exact hpres k (parentList_mem_lt h hwf h.next j hj k (List.mem_reverse.mp hk))
    · have : k = j := by simpa using hk
      subst this
      exact hpres k hj

/-- Claim C3 (witness): the amended theorem applied at the concrete
example heap (root object id 0). -/
theorem C3_witness :
    lookupObj (group_method exampleHeap1 0 "kubernetes" kubernetesExtracted []).1 0
      = lookupObj exampleHeap1 0 ∧
    (executeH (group_method exampleHeap1 0 "kubernetes" kubernetesExtracted []).1 0).2
      = (executeH exampleHeap1 0).2 :=
  C3_amended exampleHeap1 0 "kubernetes" kubernetesExtracted [] 0
    (by unfold HeapWF; decide) (by decide)

/-! ## Binder lemmas -/

/-- The kwargs loop over a concatenation runs the first part, then — if
no exception was raised — the second part from the reached state. -/
theorem processKwargs_append (possible argP optP : List (String × ClickParam))
    (anns : List (String × Ann)) (dfls : List (String × PyVal)) :
    ∀ (l₁ l₂ : List (String × PyVal)) (args options : List (String × PyVal))
      (last : Option String),
      processKwargs possible argP optP anns dfls (l₁ ++ l₂) args options last
        = match processKwargs possible argP optP anns dfls l₁ args options last with
          | .error e => .error e
          | .ok (a, o, la) => processKwargs possible argP optP anns dfls l₂ a o la
  | [], l₂, args, options, last => rfl
  | (k, v) :: rest, l₂, args, options, last => by
    rw [List.cons_append, processKwargs, processKwargs]
    cases hs : stepKwarg possible argP optP anns dfls k v args options last with
    | error e => rfl
    | ok s =>
      obtain ⟨a, o, la⟩ := s
      exact processKwargs_append possible argP optP anns dfls rest l₂ a o la

/-- Lemma: `checkRequired` raises exactly at the first required-and-unbound
declaration, whose cli name `firstMissing` computes; the declared
defaults play no role. -/
theorem checkRequired_eq (args options : List (String × PyVal)) :
    ∀ ps : List (String × ClickParam), (∀ kp ∈ ps, kp.2.opts ≠ []) →
      checkRequired args options ps
        = match firstMissing args options ps with
          | some cli => .error (.missingArgument cli)
          | none => .ok ()
  | [], _ => rfl
  | (k, p) :: rest, hps => by
    obtain ⟨o₀, os, hopts⟩ : ∃ o₀ os, p.opts = o₀ :: os := by
      cases hp : p.opts with
      | nil => exact absurd hp (hps (k, p) (List.mem_cons_self _ _))
      | cons a b => exact ⟨a, b, rfl⟩
    have ih := checkRequired_eq args options rest
      (fun q hq => hps q (List.mem_cons_of_mem _ hq))
    by_cases hc : (((odLookup args (stripDashes o₀)).isNone
        && (odLookup options (stripDashes o₀)).isNone) && p.required) = true
    · simp [checkRequired, firstMissing, hopts, hc]
    · simp [checkRequired, firstMissing, hopts, hc, ih]

/-! ## C8: serialization is destructive -/

/-- Claim C8 (counterexample).  Serializing the same fully-built chain
twice does *not* yield the same token sequence: `execute` `pop`s the
stored `args`/`options` out of every chain entry, so the second
serialization returns only the command-name tokens, and the stored
bindings change from present (`isSome = true`) to removed. -/
theorem C8_counterexample :
    (executeH (executeH c8BuiltHeap 0).1 0).2 ≠ (executeH c8BuiltHeap 0).2 ∧
    (lookupObj c8BuiltHeap 0).map (fun o => o.chain.map (fun e => e.2.args.isSome))
      = some [true, true] ∧
    (lookupObj (executeH c8BuiltHeap 0).1 0).map
        (fun o => o.chain.map (fun e => e.2.args.isSome))
      = some [false, false] := by
  refine ⟨?_, rfl, rfl⟩
  have h1 : (executeH (executeH c8BuiltHeap 0).1 0).2
      = [PyVal.vStr "flow.py", PyVal.vStr "run"] := rfl
  have h2 : (executeH c8BuiltHeap 0).2
      = PyVal.vStr "flow.py" :: claimedTokens := rfl
  rw [h1, h2]
  intro hc
  have hl := congrArg List.length hc
  simp [claimedTokens] at hl

/-- Claim C8 (amended).  Serialization is destructive: serializing a
fully-built root chain removes the stored `args`/`options` bindings
from every chain entry (each entry is left as
`(name, {args := none, options := none})`), and a second serialization
of the same chain therefore returns only the command-name tokens. -/
theorem C8_amended (h : Heap) (i : Nat) (o : APIObj)
    (ho : lookupObj h i = some o) (hroot : o.parentId = none) :
    lookupObj (executeH h i).1 i
      = some { o with
          chain := o.chain.map (fun e => (e.1, MethodParams.mk none none)) } ∧
    (executeH (executeH h i).1 i).2 = o.chain.map (fun e => PyVal.vStr e.1) := by
  have hpl : parentList h h.next i = [] := by
    cases hn : h.next with
    | zero => rfl
    | succ n => simp [parentList, ho, hroot]
  have hrun : executeH h i
      = (updateObj h i { o with chain := (drainChain o.chain).1 },
         (drainChain o.chain).2) := by
    rw [executeH, execOrder, hpl]
    simp [execFold, ho]
  have hfst : (executeH h i).1
      = updateObj h i { o with
          chain := o.chain.map (fun e => (e.1, MethodParams.mk none none)) } := by
    rw [hrun, drainChain_fst]
  have ho1 : lookupObj (executeH h i).1 i
      = some { o with
          chain := o.chain.map (fun e => (e.1, MethodParams.mk none none)) } := by
    rw [hfst]
    exact lookupObj_updateObj_self _ _ _
  refine ⟨ho1, ?_⟩
  have hnext : (executeH h i).1.next = h.next := by rw [hfst]; rfl
  have hpl1 : parentList (executeH h i).1 (executeH h i).1.next i = [] := by
    rw [hnext]
    cases hn : h.next with
    | zero => rfl
    | succ n => simp [parentList, ho1, hroot]
  rw [executeH, execOrder, hpl1]
  simp [execFold, ho1, drainChain_drained]

/-- Claim C8 (witness): the amended theorem applied to the concrete
fully-built example chain. -/
theorem C8_witness :
    lookupObj (executeH c8BuiltHeap 0).1 0
      = some { c8BuiltRoot with
          chain := c8BuiltRoot.chain.map (fun e => (e.1, MethodParams.mk none none)) } ∧
    (executeH (executeH c8BuiltHeap 0).1 0).2
      = c8BuiltRoot.chain.map (fun e => PyVal.vStr e.1) :=
  C8_amended c8BuiltHeap 0 c8BuiltRoot rfl rfl

/-- Claim C9.  Root-level parameter computation is lazy, cached, and
root-only: (a) on a non-root object (no flow class, or a parent
present) it raises the `RuntimeError` and changes nothing; (b) on a
root object with an empty cache it computes the non-config parameters,
stores them in the cache, and a second call returns exactly the cached
list without touching the heap; (c) with a populated cache it returns
the cached list and changes nothing. -/
theorem C9_theorem (h : Heap) (i : Nat) (o : APIObj) (ho : lookupObj h i = some o) :
    ((o.flowCls.isNone || o.parentId.isSome) = true →
      _compute_flow_parameters h i = (h, .error .invalidRootAccess)) ∧
    (∀ fc, o.flowCls = some fc → o.parentId = none → o.cachedParams = none →
      _compute_flow_parameters h i
        = (updateObj h i { o with cachedParams := some (computedFlowParams fc) },
           .ok (computedFlowParams fc)) ∧
      _compute_flow_parameters (_compute_flow_parameters h i).1 i
        = ((_compute_flow_parameters h i).1, .ok (computedFlowParams fc))) ∧
    (∀ c, o.cachedParams = some c → (o.flowCls.isNone || o.parentId.isSome) = false →
      _compute_flow_parameters h i = (h, .ok c)) := by
  refine ⟨?_, ?_, ?_⟩
  · intro hbad
    simp [_compute_flow_parameters, ho, hbad]
  · intro fc hfc hpar hcache
    have hfirst : _compute_flow_parameters h i
        = (updateObj h i { o with cachedParams := some (computedFlowParams fc) },
           .ok (computedFlowParams fc)) := by
      simp [_compute_flow_parameters, ho, hfc, hpar, hcache, computedFlowParams]
    refine ⟨hfirst, ?_⟩
    rw [hfirst]
    simp [_compute_flow_parameters, lookupObj_updateObj_self, hfc, hpar]
  · intro c hcache hgood
    simp [_compute_flow_parameters, ho, hgood, hcache]

/-- Claim C9 (witness): the root-only error at the subgroup object (which
has a parent), and the compute-then-cached round trip at the root. -/
theorem C9_witness :
    _compute_flow_parameters c3HeapWithSibling 1
      = (c3HeapWithSibling, .error .invalidRootAccess) ∧
    _compute_flow_parameters (_compute_flow_parameters exampleHeap1 0).1 0
      = ((_compute_flow_parameters exampleHeap1 0).1, .ok (computedFlowParams [])) := by
  constructor
  · exact (C9_theorem c3HeapWithSibling 1 _ rfl).1 rfl
  · exact ((C9_theorem exampleHeap1 0 _ rfl).2.1 [] rfl rfl rfl).2

/-- A member already installed on the instance is returned directly:
`__getattr__` is only consulted for missing attributes. -/
theorem getattrH_found (h : Heap) (i : Nat) (o : APIObj) (cli : List (String × Bool))
    (name : String) (m : Member) (ho : lookupObj h i = some o)
    (hm : odLookup o.attrs name = some m) :
    getattrH h i cli name = (h, .ok m) := by
  simp only [getattrH, ho, hm]

/-- Claim C10.  On a root object, accessing a member name that matches no
child of the command collection raises `AttributeError` and leaves the
object's chain unchanged (only the flow-parameter cache may have been
filled, since `_lazy_load_command` resolves the flow parameters before
the lookup); a successful first access `setattr`s the built callable
onto the object, and a repeated access returns the identical callable
without any further state change. -/
theorem C10_theorem (h : Heap) (i : Nat) (o : APIObj)
    (cli : List (String × Bool)) (name : String)
    (ho : lookupObj h i = some o)
    (hattr : odLookup o.attrs name = none)
    (fc : List FlowClsParam) (hfc : o.flowCls = some fc) (hpar : o.parentId = none) :
    (odLookup cli name = none →
      (getattrH h i cli name).2 = .error .attributeNotFound ∧
      (lookupObj (getattrH h i cli name).1 i).map APIObj.chain = some o.chain) ∧
    (∀ (isGroup : Bool) (h' : Heap) (m : Member), odLookup cli name = some isGroup →
      getattrH h i cli name = (h', .ok m) →
      getattrH h' i cli name = (h', .ok m)) := by
  cases hcp : o.cachedParams with
  | some c =>
    have hcmp : _compute_flow_parameters h i = (h, .ok c) := by
      simp [_compute_flow_parameters, ho, hfc, hpar, hcp]
    constructor
    · intro hmiss
      have hres : getattrH h i cli name = (h, .error .attributeNotFound) := by
        rw [getattrH, ho]
        simp only [hattr]
        rw [_lazy_load_command, hcmp]
        simp only [hmiss]
      rw [hres]
      exact ⟨rfl, by rw [ho]; rfl⟩
    · intro isGroup h' m hhit heq
      have hres : getattrH h i cli name
          = (setattrHeap h i o name (builtMember isGroup name h.next),
             .ok (builtMember isGroup name h.next)) := by
        rw [getattrH, ho]
        simp only [hattr]
        rw [_lazy_load_command, hcmp]
        simp only [hhit, ho]
        rfl
      rw [hres] at heq
      injection heq with h1 h2
      injection h2 with h3
      subst h1
      subst h3
      exact getattrH_found _ _ _ _ _ _ (odLookup_odInsert_self _ _ _)
        (odLookup_odInsert_self _ _ _)
  | none =>
    have hcmp : _compute_flow_parameters h i
        = (updateObj h i (withCache o (computedFlowParams fc)),
           .ok (computedFlowParams fc)) := by
      simp [_compute_flow_parameters, ho, hfc, hpar, hcp, computedFlowParams,
        withCache]
    have ho1 : lookupObj (updateObj h i (withCache o (computedFlowParams fc))) i
        = some (withCache o (computedFlowParams fc)) :=
      lookupObj_updateObj_self _ _ _
    constructor
    · intro hmiss
      have hres : getattrH h i cli name
          = (updateObj h i (withCache o (computedFlowParams fc)),
             .error .attributeNotFound) := by
        rw [getattrH, ho]
        simp only [hattr]
        rw [_lazy_load_command, hcmp]
        simp only [hmiss]
      rw [hres]
      exact ⟨rfl, by rw [ho1]; rfl⟩
    · intro isGroup h' m hhit heq
      have hres : getattrH h i cli name
          = (setattrHeap (updateObj h i (withCache o (computedFlowParams fc))) i
               (withCache o (computedFlowParams fc)) name
               (builtMember isGroup name h.next),
             .ok (builtMember isGroup name h.next)) := by
        rw [getattrH, ho]
        simp only [hattr]
        rw [_lazy_load_command, hcmp]
        simp only [hhit, ho1]
        rfl
      rw [hres] at heq
      injection heq with h1 h2
      injection h2 with h3
      subst h1
      subst h3
      exact getattrH_found _ _ _ _ _ _ (odLookup_odInsert_self _ _ _)
        (odLookup_odInsert_self _ _ _)

/-- Claim C10 (witness): the theorem applied at the concrete root object,
for an unknown member name and for the child command `run`. -/
theorem C10_witness :
    ((getattrH exampleHeap1 0 exampleCli "bogus").2 = .error .attributeNotFound ∧
      (lookupObj (getattrH exampleHeap1 0 exampleCli "bogus").1 0).map APIObj.chain
        = some exampleRoot.chain) ∧
    getattrH (getattrH exampleHeap1 0 exampleCli "run").1 0 exampleCli "run"
      = ((getattrH exampleHeap1 0 exampleCli "run").1,
         .ok (builtMember false "run" 1)) := by
  constructor
  · exact (C10_theorem exampleHeap1 0 exampleRoot exampleCli "bogus"
      rfl rfl [] rfl rfl).1 rfl
  · exact (C10_theorem exampleHeap1 0 exampleRoot exampleCli "run"
      rfl rfl [] rfl rfl).2 false _ _ rfl rfl

/-! ## C7: unknown-key rejection -/

/-- Claim C7 (counterexample).  When a supplied kwarg *earlier in supplied
order* fails the type check, binding fails with the `TypeError`, not
with the unknown-argument error — even though a later supplied key
(`"zeta"`) matches no declaration.  So "if any supplied key matches no
declaration, binding fails with UnknownParameter" is false as stated. -/
theorem C7_counterexample :
    _method_sanity_check [] [("alpha", alphaOptParam)]
        [("alpha", annOf alphaOptParam)] [("alpha", PyVal.vInt 0)]
        [("alpha", PyVal.vStr "bad"), ("zeta", PyVal.vInt 1)]
      = .error (.invalidType "alpha" (annOf alphaOptParam) (PyVal.vInt 0)) ∧
    odLookup (possibleParams [] [("alpha", alphaOptParam)]) "zeta" = none :=
  ⟨rfl, rfl⟩

/-- Claim C7 (amended).  If the first invalid supplied kwarg (in supplied
order) is an unknown key — i.e. every kwarg before it is processed
without an exception — then binding fails with the unknown-argument
`ValueError` carrying the full list of valid parameter names, and both
the leaf and the group invocation abort with that error leaving the
heap (hence every chain) exactly as it was. -/
theorem C7_amended (argP optP : List (String × ClickParam))
    (anns : List (String × Ann)) (dfls : List (String × PyVal))
    (pre post : List (String × PyVal)) (k : String) (v : PyVal)
    (args options : List (String × PyVal)) (last : Option String)
    (hpre : processKwargs (possibleParams argP optP) argP optP anns dfls pre [] [] none
      = .ok (args, options, last))
    (hk : odLookup (possibleParams argP optP) k = none) :
    _method_sanity_check argP optP anns dfls (pre ++ (k, v) :: post)
      = .error (.unknownArgument k (odKeys (possibleParams argP optP))) ∧
    (∀ (h : Heap) (selfId : Nat) (cname : String) (e : Extracted),
      e.arg_parameters = argP → e.opt_parameters = optP → e.annotations = anns →
      e.defaults = dfls →
      command_method h selfId cname e (pre ++ (k, v) :: post)
        = (h, .error (.unknownArgument k (odKeys (possibleParams argP optP)))) ∧
      group_method h selfId cname e (pre ++ (k, v) :: post)
        = (h, .error (.unknownArgument k (odKeys (possibleParams argP optP))))) := by
  have hrun : processKwargs (possibleParams argP optP) argP optP anns dfls
      (pre ++ (k, v) :: post) [] [] none
      = .error (.unknownArgument k (odKeys (possibleParams argP optP))) := by
    rw [processKwargs_append, hpre]
    have hstep : stepKwarg (possibleParams argP optP) argP optP anns dfls k v
        args options last
        = .error (.unknownArgument k (odKeys (possibleParams argP optP))) := by
      simp only [stepKwarg, hk]
    simp only [processKwargs, hstep]
  have hmsc : _method_sanity_check argP optP anns dfls (pre ++ (k, v) :: post)
      = .error (.unknownArgument k (odKeys (possibleParams argP optP))) := by
    simp only [_method_sanity_check, hrun]
  refine ⟨hmsc, ?_⟩
  intro h selfId cname e he1 he2 he3 he4
  have hmsc' : _method_sanity_check e.arg_parameters e.opt_parameters e.annotations
      e.defaults (pre ++ (k, v) :: post)
      = .error (.unknownArgument k (odKeys (possibleParams argP optP))) := by
    rw [he1, he2, he3, he4]
    exact hmsc
  constructor
  · simp only [command_method, hmsc']
  · simp only [group_method, hmsc']

/-- Claim C7 (witness): the amended theorem at a concrete binder — one
well-typed known kwarg followed by the unknown key `"zeta"`. -/
theorem C7_witness :
    _method_sanity_check [] [("alpha", alphaOptParam)]
        [("alpha", annOf alphaOptParam)] [("alpha", PyVal.vInt 0)]
        [("alpha", PyVal.vInt 2), ("zeta", PyVal.vInt 1)]
      = .error (.unknownArgument "zeta"
          (odKeys (possibleParams [] [("alpha", alphaOptParam)]))) :=
  (C7_amended [] [("alpha", alphaOptParam)]
    [("alpha", annOf alphaOptParam)] [("alpha", PyVal.vInt 0)]
    [("alpha", PyVal.vInt 2)] [] "zeta" (PyVal.vInt 1)
    [] [("alpha", PyVal.vInt 2)] (some "alpha") rfl rfl).1

/-! ## C6: required enforcement -/

/-- Claim C6 (counterexample).  Two refutations: (1) a required parameter
with the usable default `5` that is simply not supplied still fails
with the missing-argument error — the required check never consults
defaults, so "no usable default" is not part of the failure condition;
(2) supplying the type-valid value `False` for a required boolean flag
with no secondary spelling does *not* make the binding succeed: the
value binds nothing and the parameter is then reported missing. -/
theorem C6_counterexample :
    _method_sanity_check [] [("alpha", reqAlphaParam)]
        [("alpha", annOf reqAlphaParam)] [("alpha", PyVal.vInt 5)] []
      = .error (.missingArgument "alpha") ∧
    reqAlphaParam.default = PyVal.vInt 5 ∧
    _method_sanity_check [] [("cleanup", reqCleanupParam)]
        [("cleanup", annOf reqCleanupParam)] [("cleanup", reqCleanupParam.default)]
        [("cleanup", PyVal.vBool false)]
      = .error (.missingArgument "cleanup") ∧
    checkType (PyVal.vBool false) (annOf reqCleanupParam) = true :=
  ⟨rfl, rfl, rfl, rfl⟩

/-- Claim C6 (amended).  (i) After the supplied kwargs are processed
without an exception, binding fails with the missing-argument error
naming the cli name of the *first* declaration (in declaration order)
that is required and bound in neither `args` nor `options` — and
succeeds iff there is none; declared defaults are never consulted.
(ii) Supplying a type-valid value for an option binds its primary cli
name (so the parameter is never reported missing), except that a
boolean flag binds its primary name only for a true value.  (iii) The
same for a positional argument. -/
theorem C6_amended :
    (∀ (argP optP : List (String × ClickParam)) (anns : List (String × Ann))
        (dfls kwargs args options : List (String × PyVal)) (last : Option String),
      (∀ kp ∈ possibleParams argP optP, kp.2.opts ≠ []) →
      processKwargs (possibleParams argP optP) argP optP anns dfls kwargs [] [] none
        = .ok (args, options, last) →
      _method_sanity_check argP optP anns dfls kwargs
        = match firstMissing args options (possibleParams argP optP) with
          | some cli => .error (.missingArgument cli)
          | none => .ok { args := some args, options := some options }) ∧
    (∀ (p : ClickParam) (v : PyVal) (o₀ : String) (os : List String),
      p.isArgument = false → p.opts = o₀ :: os →
      checkType v (annOf p) = true →
      (p.is_bool_flag = true → pyEqTrue v = true ∧ annOf p ≠ Ann.prim .pyJSON) →
      ∃ w, _method_sanity_check [] [(p.name, p)] [(p.name, annOf p)]
          [(p.name, p.default)] [(p.name, v)]
        = .ok { args := some [], options := some [(stripDashes o₀, w)] }) ∧
    (∀ (q : ClickParam) (v : PyVal) (a₀ : String) (as' : List String),
      q.isArgument = true → q.opts = a₀ :: as' →
      checkType v (annOf q) = true →
      ∃ w, _method_sanity_check [(q.name, q)] [] [(q.name, annOf q)]
          [(q.name, q.default)] [(q.name, v)]
        = .ok { args := some [(stripDashes a₀, w)], options := some [] }) := by
  refine ⟨?_, ?_, ?_⟩
  · intro argP optP anns dfls kwargs args options last hopts hrun
    simp only [_method_sanity_check, hrun]
    rw [checkRequired_eq args options _ hopts]
    cases firstMissing args options (possibleParams argP optP) <;> rfl
  · intro p v o₀ os harg hopts hcheck hbool
    have hposs : possibleParams [] [(p.name, p)] = [(p.name, p)] := rfl
    by_cases hbf : p.is_bool_flag = true
    · obtain ⟨htrue, hjson⟩ := hbool hbf
      refine ⟨PyVal.vStr "flag", ?_⟩
      have hstep : stepKwarg [(p.name, p)] [] [(p.name, p)] [(p.name, annOf p)]
          [(p.name, p.default)] p.name v [] [] none
          = .ok ([], [(stripDashes o₀, PyVal.vStr "flag")], some (stripDashes o₀)) := by
        simp [stepKwarg, odLookup, hcheck, hjson, hbf, htrue, hopts, odInsert]
      simp only [_method_sanity_check, hposs, processKwargs, hstep]
      simp [checkRequired, hopts, odLookup]
    · have hbf' : p.is_bool_flag = false := by
        revert hbf; cases p.is_bool_flag <;> simp
      refine ⟨if annOf p = Ann.prim .pyJSON then PyVal.vStr (jsonDumps v) else v, ?_⟩
      have hstep : stepKwarg [(p.name, p)] [] [(p.name, p)] [(p.name, annOf p)]
          [(p.name, p.default)] p.name v [] [] none
          = .ok ([], [(stripDashes o₀,
              if annOf p = Ann.prim .pyJSON then PyVal.vStr (jsonDumps v) else v)],
             some (stripDashes o₀)) := by
        simp [stepKwarg, odLookup, hcheck, hbf', hopts, odInsert]
      simp only [_method_sanity_check, hposs, processKwargs, hstep]
      simp [checkRequired, hopts, odLookup]
  · intro q v a₀ as' harg hopts hcheck
    have hposs : possibleParams [(q.name, q)] [] = [(q.name, q)] := rfl
    refine ⟨if annOf q = Ann.prim .pyJSON then PyVal.vStr (jsonDumps v) else v, ?_⟩
    have hstep : stepKwarg [(q.name, q)] [(q.name, q)] [] [(q.name, annOf q)]
        [(q.name, q.default)] q.name v [] [] none
        = .ok ([(stripDashes a₀,
            if annOf q = Ann.prim .pyJSON then PyVal.vStr (jsonDumps v) else v)], [],
           some (stripDashes a₀)) := by
      simp [stepKwarg, odLookup, hcheck, hopts, odInsert]
    simp only [_method_sanity_check, hposs, processKwargs, hstep]
    simp [checkRequired, hopts, odLookup]

/-- Claim C6 (witness): the characterisation applied to the required
parameter `alpha` (reported missing when unsupplied, bound when
supplied), and the option/argument binding parts at concrete values. -/
theorem C6_witness :
    (_method_sanity_check [] [("alpha", reqAlphaParam)]
        [("alpha", annOf reqAlphaParam)] [("alpha", PyVal.vInt 5)] []
      = match firstMissing [] [] (possibleParams [] [("alpha", reqAlphaParam)]) with
        | some cli => Except.error (BindError.missingArgument cli)
        | none => Except.ok { args := some [], options := some [] }) ∧
    (∃ w, _method_sanity_check [] [("alpha", reqAlphaParam)]
        [("alpha", annOf reqAlphaParam)] [("alpha", reqAlphaParam.default)]
        [("alpha", PyVal.vInt 5)]
      = .ok { args := some [], options := some [("alpha", w)] }) := by
  constructor
  · exact (C6_amended.1 [] [("alpha", reqAlphaParam)]
      [("alpha", annOf reqAlphaParam)] [("alpha", PyVal.vInt 5)] [] [] [] none
      (by decide) rfl)
  · exact C6_amended.2.1 reqAlphaParam (PyVal.vInt 5) "--alpha" [] rfl rfl rfl
      (by simp [reqAlphaParam])

/-! ## C4: boolean flag polarity -/

/-- Claim C4 (counterexample).  The claim quantifies over *every*
boolean flag, but for a *required* boolean flag supplying the
type-valid value `False` does not emit the claimed tokens: even with a
secondary spelling present the value binds under the secondary name
while the required check looks up the primary name, so the invocation
raises the missing-argument error and emits nothing at all (with no
secondary spelling nothing binds and the same error is raised). -/
theorem C4_counterexample :
    _method_sanity_check [] [("verbose", reqVerboseParam)]
        [("verbose", annOf reqVerboseParam)]
        [("verbose", reqVerboseParam.default)]
        [("verbose", PyVal.vBool false)]
      = .error (.missingArgument "verbose") ∧
    reqVerboseParam.is_bool_flag = true ∧
    reqVerboseParam.secondary_opts = ["--no-verbose"] ∧
    checkType (PyVal.vBool false) (annOf reqVerboseParam) = true :=
  ⟨rfl, rfl, rfl, rfl⟩

/-- Claim C4 (amended).  For a *non-required* boolean flag option:
supplying `true` binds the primary spelling to the presence marker and
emits exactly the single token `--<primary>`; supplying `false` with a
secondary spelling binds and emits exactly `--<secondary>`; supplying
`false` with no secondary spelling binds nothing and emits no token
for the parameter.  A boolean flag never contributes a literal value
token.  (A required boolean flag supplied `false` instead fails with
the missing-argument error — the counterexample.) -/
theorem C4_theorem (p : ClickParam) (o₀ : String) (os : List String)
    (harg : p.isArgument = false) (hbf : p.is_bool_flag = true)
    (hty : p.ptype = .boolParam) (hmul : p.multiple = false)
    (hnargs : p.nargs ≠ -1) (hreq : p.required = false)
    (hopts : p.opts = o₀ :: os) :
    (_method_sanity_check [] [(p.name, p)] [(p.name, annOf p)]
        [(p.name, p.default)] [(p.name, PyVal.vBool true)]
      = .ok { args := some [],
              options := some [(stripDashes o₀, PyVal.vStr "flag")] } ∧
     optionTokens [(stripDashes o₀, PyVal.vStr "flag")]
      = [PyVal.vStr ("--" ++ stripDashes o₀)]) ∧
    (∀ s₀ ss, p.secondary_opts = s₀ :: ss →
      _method_sanity_check [] [(p.name, p)] [(p.name, annOf p)]
          [(p.name, p.default)] [(p.name, PyVal.vBool false)]
        = .ok { args := some [],
                options := some [(stripDashes s₀, PyVal.vStr "flag")] } ∧
      optionTokens [(stripDashes s₀, PyVal.vStr "flag")]
        = [PyVal.vStr ("--" ++ stripDashes s₀)]) ∧
    (p.secondary_opts = [] →
      _method_sanity_check [] [(p.name, p)] [(p.name, annOf p)]
          [(p.name, p.default)] [(p.name, PyVal.vBool false)]
        = .ok { args := some [], options := some [] } ∧
      optionTokens ([] : List (String × PyVal)) = []) := by
  have hposs : possibleParams [] [(p.name, p)] = [(p.name, p)] := rfl
  have hann : annOf p = Ann.optPrim .pyBool := by
    simp [annOf, hreq, hmul, hnargs, hty, click_to_python_types]
  refine ⟨⟨?_, ?_⟩, fun s₀ ss hsec => ⟨?_, ?_⟩, fun hsec => ⟨?_, ?_⟩⟩
  · have hstep : stepKwarg [(p.name, p)] [] [(p.name, p)] [(p.name, annOf p)]
        [(p.name, p.default)] p.name (PyVal.vBool true) [] [] none
        = .ok ([], [(stripDashes o₀, PyVal.vStr "flag")], some (stripDashes o₀)) := by
      simp [stepKwarg, odLookup, hann, hbf, hopts, odInsert, checkType, checkPrim,
        pyEqTrue]
    simp only [_method_sanity_check, hposs, processKwargs, hstep]
    simp [checkRequired, hopts, odLookup, hreq]
  · simp [optionTokens, pyIsFlagMarker]
  · have hstep : stepKwarg [(p.name, p)] [] [(p.name, p)] [(p.name, annOf p)]
        [(p.name, p.default)] p.name (PyVal.vBool false) [] [] none
        = .ok ([], [(stripDashes s₀, PyVal.vStr "flag")], some (stripDashes s₀)) := by
      simp [stepKwarg, odLookup, hann, hbf, hopts, hsec, odInsert, checkType,
        checkPrim, pyEqTrue, pyEqFalse]
    simp only [_method_sanity_check, hposs, processKwargs, hstep]
    simp [checkRequired, hopts, odLookup, hreq]
  · simp [optionTokens, pyIsFlagMarker]
  · have hstep : stepKwarg [(p.name, p)] [] [(p.name, p)] [(p.name, annOf p)]
        [(p.name, p.default)] p.name (PyVal.vBool false) [] [] none
        = .ok ([], [], none) := by
      simp [stepKwarg, odLookup, hann, hbf, hopts, hsec, checkType, checkPrim,
        pyEqTrue, pyEqFalse]
    simp only [_method_sanity_check, hposs, processKwargs, hstep]
    simp [checkRequired, hopts, odLookup, hreq]
  · rfl

/-- Claim C4 (witness): the theorem applied to a concrete boolean flag
with both spellings, and to one without a secondary spelling. -/
theorem C4_witness :
    _method_sanity_check [] [("foo", boolFooParam)] [("foo", annOf boolFooParam)]
        [("foo", boolFooParam.default)] [("foo", PyVal.vBool false)]
      = .ok { args := some [],
              options := some [("no-foo", PyVal.vStr "flag")] } ∧
    optionTokens [("no-foo", PyVal.vStr "flag")] = [PyVal.vStr "--no-foo"] :=
  (C4_theorem boolFooParam "--foo" [] rfl rfl rfl rfl (by decide) rfl rfl).2.1
    "--no-foo" [] rfl

/-! ## C5: multiplicity -/

end ClickAPI
